import Mathlib

/-!
# MigrEL: the Elasticsearch version store of `internal/store/store.go`

A shallow embedding of `Store` (the goose `database.Store` backed by an
Elasticsearch index) and of the pieces of its environment that its results depend
on: Go error values with `errors.Is` / `errors.As`, the typed Elasticsearch client
as a state-passing interface, and an in-memory index implementing that interface.

Conventions.
* Go `int64` values are `Int`s in the range `[-2^63, 2^63)` (`IsInt64`).
* A Go `error` result is an `Option GoError` (`none` is `nil`); a `(value, error)`
  pair whose value is meaningless on failure is an `Except GoError value`.
* `ctx` and the unused `database.DBTxConn` argument are dropped.
* `time.Now()` is an explicit argument of `Insert`.
-/

namespace MigrEL

/-! ## Go errors -/

/-- The body of a `*types.ElasticsearchError`: the HTTP status and the reason text. -/
structure ElasticsearchError where
  Status : Int
  Reason : String
  deriving DecidableEq, Repr

/-- Go error values, as far as `errors.Is`, `errors.As` and `errors.Unwrap` can tell
them apart.
* `sentinel name`: a package-level `errors.New` value, compared by identity;
* `elasticsearch e`: a `*types.ElasticsearchError` (it has no `Unwrap` method);
* `leaf msg`: any other error without an `Unwrap` method (transport, JSON, context);
* `wrapf before inner after`: `fmt.Errorf` with one `%w` verb, `before` and `after`
  being the formatted text around it. -/
inductive GoError where
  | sentinel (name : String)
  | elasticsearch (e : ElasticsearchError)
  | leaf (msg : String)
  | wrapf (before : String) (inner : GoError) (after : String)
  deriving DecidableEq, Repr

/-- The sentinel `database.ErrVersionNotFound` of goose. -/
def ErrVersionNotFound : GoError := GoError.sentinel "version not found"

/-- Go `errors.Unwrap`. -/
def errorsUnwrap : GoError → Option GoError
  | GoError.wrapf _ inner _ => some inner
  | _ => none

/-- Go `errors.Is(err, target)` for a comparable target: `err` or an error in its
`Unwrap` chain equals `target`. (The `Is` method of `*types.ElasticsearchError`
compares the target's text with `status: N`, which never holds of a sentinel.) -/
def errorsIs : GoError → GoError → Bool
  | GoError.wrapf before inner after, target =>
      decide (GoError.wrapf before inner after = target) || errorsIs inner target
  | err, target => decide (err = target)

/-- Go `errors.As(err, &elErr)` with `elErr : *types.ElasticsearchError`: the first
Elasticsearch error of the `Unwrap` chain. -/
def errorsAs : GoError → Option ElasticsearchError
  | GoError.elasticsearch e => some e
  | GoError.wrapf _ inner _ => errorsAs inner
  | _ => none

/-! ## Data model -/

/-- Go `time.Time`, as nanoseconds from the zero instant; the zero value is `0`. -/
abbrev Time := Int

/-- The range of Go `int64`. -/
def IsInt64 (x : Int) : Prop := -(2 : Int) ^ 63 ≤ x ∧ x < (2 : Int) ^ 63

instance (x : Int) : Decidable (IsInt64 x) := by unfold IsInt64; infer_instance

/-- `strconv.IntSize`: the width of Go `int` on the 64-bit targets. -/
def IntSize : Nat := 64

/-- The conversion `int(version)` of an `int64`: wraps to `IntSize` bits. -/
def intOfInt64 (x : Int) : Int :=
  (x + (2 : Int) ^ (IntSize - 1)) % (2 : Int) ^ IntSize - (2 : Int) ^ (IntSize - 1)

/-- Go `strconv.Itoa`: the decimal text of an integer. -/
def Itoa (i : Int) : String := toString i

/-- The document type `Migration` (store.go, lines 19 to 23). -/
structure Migration where
  Version : Int
  IsApplied : Bool
  CreatedAt : Time
  deriving DecidableEq, Repr

/-- The zero value `Migration{}`. -/
def Migration.zero : Migration := { Version := 0, IsApplied := false, CreatedAt := 0 }

/-- The JSON field names of `Migration`, from its struct tags. -/
def Migration.jsonTags : List String := ["version", "is_applied", "created_at"]

/-- The struct tag of `Migration.Version`. -/
def Migration.versionTag : String := "version"

/-- A `json.RawMessage`, abstracted to what `json.Unmarshal` into a zero
`Migration` makes of it: a decoded record or a decoding error. -/
inductive RawMessage where
  | decodes (d : Migration)
  | malformed (err : GoError)
  deriving DecidableEq, Repr

/-- Go `json.Unmarshal(raw, &document)` on a zero `document`. -/
def jsonUnmarshal : RawMessage → Except GoError Migration
  | RawMessage.decodes d => Except.ok d
  | RawMessage.malformed err => Except.error err

/-- A search hit (`types.Hit`): the document id and its source. -/
structure Hit where
  Id_ : String
  Source_ : RawMessage
  deriving DecidableEq, Repr

/-- The hits of a `search.Response` (`res.Hits.Hits`). -/
structure SearchResponse where
  Hits : List Hit
  deriving DecidableEq, Repr

/-- The query text of a `types.MatchQuery`. -/
structure MatchQuery where
  Query : String
  deriving DecidableEq, Repr

/-- A `types.Query` with its `Match` map, as an association list. -/
structure Query where
  Match : List (String × MatchQuery)
  deriving DecidableEq, Repr

/-- The sort order enum `sortorder`. -/
inductive SortOrder where
  | Asc
  | Desc
  deriving DecidableEq, Repr

/-- Go `types.SortCombinations`: a `field:order` string or a `types.SortOptions` map. -/
inductive SortCombinations where
  | text (s : String)
  | options (SortOptions : List (String × SortOrder))
  deriving DecidableEq, Repr

/-- A `search.Request`: optional query and the sort list. -/
structure SearchRequest where
  Query : Option Query
  Sort_ : List SortCombinations
  deriving DecidableEq, Repr

/-- The `refresh` enum of the index call. -/
inductive Refresh where
  | True
  | False
  | WaitFor
  deriving DecidableEq, Repr

/-- The calls of `elasticsearch.TypedClient` that `Store` uses, over a backend of
state `σ`: each takes the state before the call and gives the outcome and the state
after it. -/
structure TypedClient (σ : Type) where
  Search : String → SearchRequest → σ → Except GoError SearchResponse × σ
  Index : String → Migration → Refresh → σ → Option GoError × σ
  Delete : String → String → σ → Option GoError × σ

/-- The struct `Store` (store.go, lines 32 to 35). -/
structure Store (σ : Type) where
  tableName : String
  esClient : TypedClient σ

/-- The goose `database.GetMigrationResult`. -/
structure GetMigrationResult where
  Timestamp : Time
  IsApplied : Bool
  deriving DecidableEq, Repr

/-- The goose `database.ListMigrationsResult`. -/
structure ListMigrationsResult where
  Version : Int
  IsApplied : Bool
  deriving DecidableEq, Repr

/-! ## The store operations -/

/-- The document `Insert` indexes (store.go, lines 64 to 68). -/
def insertDocument (now : Time) (version : Int) : Migration :=
  { Version := version, CreatedAt := now, IsApplied := true }

/-- `Store.Insert` (store.go, lines 62 to 76). -/
def Store.Insert {σ : Type} (s : Store σ) (now : Time) (version : Int) (st : σ) :
    Option GoError × σ :=
  match s.esClient.Index s.tableName (insertDocument now version) Refresh.True st with
  | (some err, st1) => (some (GoError.wrapf "index: " err ""), st1)
  | (none, st1) => (none, st1)

/-- The lookup request of `Store.Delete` (store.go, lines 82 to 90). -/
def deleteSearchRequest (version : Int) : SearchRequest :=
  { Query := some { Match := [("version_id", { Query := Itoa (intOfInt64 version) })] },
    Sort_ := [] }

/-- The loop of `Store.Delete` over the hits (store.go, lines 95 to 99): the id of
the first hit, or the empty string. -/
def firstDocumentID : List Hit → String
  | [] => ""
  | hit :: _ => hit.Id_

/-- `Store.Delete` (store.go, lines 79 to 108). The error of the delete-document
call is assigned and not looked at: the function returns `nil` after it. -/
def Store.Delete {σ : Type} (s : Store σ) (version : Int) (st : σ) : Option GoError × σ :=
  match s.esClient.Search s.tableName (deleteSearchRequest version) st with
  | (Except.error err, st1) => (some (GoError.wrapf "search: " err ""), st1)
  | (Except.ok res, st1) =>
    let documentID := firstDocumentID res.Hits
    if documentID = "" then (none, st1)
    else
      match s.esClient.Delete s.tableName documentID st1 with
      | (_, st2) => (none, st2)

/-- The request of `Store.GetMigration` (store.go, lines 119 to 125). -/
def getMigrationRequest (version : Int) : SearchRequest :=
  { Query := some { Match := [("version", { Query := Itoa (intOfInt64 version) })] },
    Sort_ := [] }

/-- The test `errors.As(err, &elErr) && elErr.Status == 404`. -/
def isStatus404 (err : GoError) : Bool :=
  match errorsAs err with
  | some elErr => decide (elErr.Status = 404)
  | none => false

/-- The decoding loop of `GetMigration` and `GetLatestVersion` (store.go, lines 134
to 140 and 170 to 176): the first hit is decoded into `document`, which stays the
zero value when there is no hit; a decoding error is wrapped and returned. -/
def decodeFirst : List Hit → Except GoError Migration
  | [] => Except.ok Migration.zero
  | hit :: _ =>
    match jsonUnmarshal hit.Source_ with
    | Except.error err => Except.error (GoError.wrapf "unmarshal: " err "")
    | Except.ok document => Except.ok document

/-- `Store.GetMigration` (store.go, lines 112 to 150). -/
def Store.GetMigration {σ : Type} (s : Store σ) (version : Int) (st : σ) :
    Except GoError GetMigrationResult × σ :=
  match s.esClient.Search s.tableName (getMigrationRequest version) st with
  | (Except.error err, st1) =>
    if isStatus404 err then
      (Except.error (GoError.wrapf "" ErrVersionNotFound (": " ++ toString version)), st1)
    else
      (Except.error (GoError.wrapf "get migration: " err ""), st1)
  | (Except.ok res, st1) =>
    match decodeFirst res.Hits with
    | Except.error err => (Except.error err, st1)
    | Except.ok document =>
      if document = Migration.zero then (Except.error ErrVersionNotFound, st1)
      else (Except.ok { Timestamp := document.CreatedAt, IsApplied := document.IsApplied }, st1)

/-- The request of `Store.GetLatestVersion` (store.go, lines 157 to 161). -/
def latestVersionRequest : SearchRequest :=
  { Query := none, Sort_ := [SortCombinations.text "created_at:desc"] }

/-- `Store.GetLatestVersion` (store.go, lines 154 to 183); the result is the pair
`(int64, error)` of the source. -/
def Store.GetLatestVersion {σ : Type} (s : Store σ) (st : σ) : (Int × Option GoError) × σ :=
  match s.esClient.Search s.tableName latestVersionRequest st with
  | (Except.error err, st1) =>
    if isStatus404 err then ((0, some ErrVersionNotFound), st1)
    else ((0, some (GoError.wrapf "search: " err "")), st1)
  | (Except.ok res, st1) =>
    match decodeFirst res.Hits with
    | Except.error err => ((0, some err), st1)
    | Except.ok document =>
      if document = Migration.zero then ((0, some ErrVersionNotFound), st1)
      else ((document.Version, none), st1)

/-- The request of `Store.ListMigrations` (store.go, lines 192 to 199). -/
def listMigrationsRequest : SearchRequest :=
  { Query := none, Sort_ := [SortCombinations.options [("created_at", SortOrder.Desc)]] }

/-- The loop of `Store.ListMigrations` (store.go, lines 204 to 214): every hit is
decoded into a fresh `document` and appended; the first decoding error ends it. -/
def listLoop : List Hit → List ListMigrationsResult → Except GoError (List ListMigrationsResult)
  | [], results => Except.ok results
  | hit :: rest, results =>
    match jsonUnmarshal hit.Source_ with
    | Except.error err => Except.error (GoError.wrapf "unmarshal: " err "")
    | Except.ok document =>
      listLoop rest (results ++ [{ Version := document.Version, IsApplied := document.IsApplied }])

/-- `Store.ListMigrations` (store.go, lines 189 to 217). -/
def Store.ListMigrations {σ : Type} (s : Store σ) (st : σ) :
    Except GoError (List ListMigrationsResult) × σ :=
  match s.esClient.Search s.tableName listMigrationsRequest st with
  | (Except.error err, st1) => (Except.error (GoError.wrapf "search: " err ""), st1)
  | (Except.ok res, st1) => (listLoop res.Hits [], st1)

/-! ## Backends -/

/-- A call made on the typed client. -/
inductive Call where
  | search (index : String) (req : SearchRequest)
  | index (index : String) (document : Migration) (refresh : Refresh)
  | delete (index : String) (id : String)
  deriving DecidableEq, Repr

/-- Whether a call is a delete-document request. -/
def Call.isDelete : Call → Bool
  | Call.delete _ _ => true
  | _ => false

/-- A client that answers as `c` does and appends every call to a log. -/
def TypedClient.logged {σ : Type} (c : TypedClient σ) : TypedClient (σ × List Call) where
  Search := fun index req st =>
    match c.Search index req st.1 with
    | (r, st1) => (r, (st1, st.2 ++ [Call.search index req]))
  Index := fun index document refresh st =>
    match c.Index index document refresh st.1 with
    | (r, st1) => (r, (st1, st.2 ++ [Call.index index document refresh]))
  Delete := fun index id st =>
    match c.Delete index id st.1 with
    | (r, st1) => (r, (st1, st.2 ++ [Call.delete index id]))

/-- The store `s` with its client replaced by the logging one. -/
def Store.logged {σ : Type} (s : Store σ) : Store (σ × List Call) :=
  { tableName := s.tableName, esClient := s.esClient.logged }

/-- The JSON object `json.Marshal` makes of a `Migration`: one member per struct
tag, the value as text. -/
def Migration.toJSON (m : Migration) : List (String × String) :=
  [("version", Itoa m.Version), ("is_applied", toString m.IsApplied),
   ("created_at", toString m.CreatedAt)]

/-- A document of the in-memory index. -/
structure StoredDoc where
  Index : String
  Id_ : String
  Source : Migration
  deriving DecidableEq, Repr

/-- The state of the in-memory index: the documents in the order they were indexed
and the counter the next document id is taken from. -/
structure Cluster where
  docs : List StoredDoc
  nextId : Nat
  deriving DecidableEq, Repr

/-- A match query holds of a document when, for every field of its `Match` map, the
document has that field and its value is the queried one. No query matches all. -/
def queryMatches (q : Option Query) (m : Migration) : Bool :=
  match q with
  | none => true
  | some q => q.Match.all (fun fq => decide (m.toJSON.lookup fq.1 = some fq.2.Query))

/-- Whether the sort list asks for `created_at` descending, in either spelling. -/
def sortsCreatedAtDesc (sort : List SortCombinations) : Bool :=
  decide (sort = [SortCombinations.text "created_at:desc"]) ||
  decide (sort = [SortCombinations.options [("created_at", SortOrder.Desc)]])

/-- The hit of a stored document. -/
def StoredDoc.toHit (d : StoredDoc) : Hit :=
  { Id_ := d.Id_, Source_ := RawMessage.decodes d.Source }

/-- Search of the in-memory index: exactly the documents of the index that the
query matches, in the order they were indexed, or newest first when the request
sorts on `created_at` descending. -/
def Cluster.search (index : String) (req : SearchRequest) (st : Cluster) : List Hit :=
  let found := st.docs.filter (fun d => decide (d.Index = index) && queryMatches req.Query d.Source)
  let ordered :=
    if sortsCreatedAtDesc req.Sort_ then
      found.insertionSort (fun a b => b.Source.CreatedAt ≤ a.Source.CreatedAt)
    else found
  ordered.map StoredDoc.toHit

/-- The in-memory index as a typed client. Indexing appends the document under a
fresh id and is visible to the next search; deleting removes the document of that
id, and answers 404 when there is none. -/
def modelClient : TypedClient Cluster where
  Search := fun index req st => (Except.ok { Hits := st.search index req }, st)
  Index := fun index document _ st =>
    (none, { docs := st.docs ++ [{ Index := index, Id_ := toString st.nextId, Source := document }],
             nextId := st.nextId + 1 })
  Delete := fun index id st =>
    if st.docs.any (fun d => decide (d.Index = index) && decide (d.Id_ = id)) then
      (none, { docs := st.docs.filter (fun d => !(decide (d.Index = index) && decide (d.Id_ = id))),
               nextId := st.nextId })
    else
      (some (GoError.elasticsearch { Status := 404, Reason := "not_found" }), st)

/-- The store named `tableName` over the in-memory index. -/
def modelStore (tableName : String) : Store Cluster :=
  { tableName := tableName, esClient := modelClient }

/-- A client that answers every search with `found`, every delete-document request
with `deleted` and indexes without error, whatever the state. -/
def scriptedClient (found : Except GoError SearchResponse) (deleted : Option GoError) :
    TypedClient Unit where
  Search := fun _ _ st => (found, st)
  Index := fun _ _ _ st => (none, st)
  Delete := fun _ _ st => (deleted, st)

/-- The store named `tableName` over a scripted client. -/
def scriptedStore (tableName : String) (found : Except GoError SearchResponse)
    (deleted : Option GoError) : Store Unit :=
  { tableName := tableName, esClient := scriptedClient found deleted }

/-! ## Decimal text -/

/-- One step of reading decimal text back: a minus sign sets the flag, any other
character is taken as a digit. -/
def digitStep (p : Bool × Nat) (c : Char) : Bool × Nat :=
  if c = '-' then (true, p.2) else (p.1, p.2 * 10 + (c.toNat - 48))

/-- Reads decimal text back into a sign flag and a magnitude. -/
def readDecimal (s : String) : Bool × Nat := List.foldl digitStep (false, 0) s.data

theorem digitStep_digitChar (b : Bool) (a k : Nat) (hk : k < 10) :
    digitStep (b, a) (Nat.digitChar k) = (b, a * 10 + k) := by
  interval_cases k <;> rfl

theorem foldl_toDigitsCore (fuel : Nat) :
    ∀ (n : Nat) (ds : List Char) (b : Bool), n < fuel →
      List.foldl digitStep (b, 0) (Nat.toDigitsCore 10 fuel n ds)
        = List.foldl digitStep (b, n) ds := by
  induction fuel with
  | zero => intro n ds b h; omega
  | succ fuel ih =>
    intro n ds b h
    unfold Nat.toDigitsCore
    simp only []
    by_cases h0 : n / 10 = 0
    · rw [if_pos h0, List.foldl_cons, digitStep_digitChar _ _ _ (Nat.mod_lt _ (by decide))]
      have hn : n % 10 = n := Nat.mod_eq_of_lt (by omega)
      simp [hn]
    · rw [if_neg h0, ih (n / 10) _ b (by omega), List.foldl_cons,
        digitStep_digitChar _ _ _ (Nat.mod_lt _ (by decide))]
      have hn : n / 10 * 10 + n % 10 = n := by omega
      rw [hn]

theorem foldl_toString_nat (b : Bool) (n : Nat) :
    List.foldl digitStep (b, 0) (toString n).data = (b, n) := by
  show List.foldl digitStep (b, 0) (Nat.repr n).data = (b, n)
  unfold Nat.repr Nat.toDigits
  simp [List.asString, foldl_toDigitsCore]

theorem readDecimal_Itoa (i : Int) : readDecimal (Itoa i) = (decide (i < 0), i.natAbs) := by
  cases i with
  | ofNat m =>
    show List.foldl digitStep (false, 0) (toString m).data = _
    rw [foldl_toString_nat]; simp
  | negSucc m =>
    show List.foldl digitStep (false, 0) ("-" ++ toString (m + 1)).data = _
    rw [String.data_append]
    simp only [List.foldl_append]
    have hminus : List.foldl digitStep (false, 0) "-".data = (true, 0) := by rfl
    rw [hminus, foldl_toString_nat]
    simp [Int.negSucc_lt_zero]

/-- Decimal rendering is injective: two integers with the same text are equal. -/
theorem Itoa_injective (a b : Int) (h : Itoa a = Itoa b) : a = b := by
  have ha := readDecimal_Itoa a
  have hb := readDecimal_Itoa b
  rw [h, hb] at ha
  simp only [Prod.mk.injEq, decide_eq_decide] at ha
  omega

/-- On the `int64` range the conversion to `int` changes nothing. -/
theorem intOfInt64_eq (x : Int) (h : IsInt64 x) : intOfInt64 x = x := by
  unfold IsInt64 at h
  unfold intOfInt64 IntSize
  have h1 : (x + (2 : Int) ^ (64 - 1)) % (2 : Int) ^ 64 = x + (2 : Int) ^ (64 - 1) := by
    apply Int.emod_eq_of_lt <;> norm_num <;> omega
  rw [h1]; ring

/-! ## Error chains -/

theorem errorsIs_wrapf_sentinel (before after name : String) (inner : GoError) :
    errorsIs (GoError.wrapf before inner after) (GoError.sentinel name)
      = errorsIs inner (GoError.sentinel name) := by
  simp [errorsIs]

theorem errorsIs_self_sentinel (name : String) :
    errorsIs (GoError.sentinel name) (GoError.sentinel name) = true := by
  simp [errorsIs]

theorem isStatus404_of_errorsAs (err : GoError) (elErr : ElasticsearchError)
    (h : errorsAs err = some elErr) (h404 : elErr.Status = 404) : isStatus404 err = true := by
  simp [isStatus404, h, h404]

theorem isStatus404_false (err : GoError)
    (h : ¬ ∃ elErr, errorsAs err = some elErr ∧ elErr.Status = 404) : isStatus404 err = false := by
  unfold isStatus404
  cases hAs : errorsAs err with
  | none => rfl
  | some elErr =>
    have hne : ¬ elErr.Status = 404 := fun h404 => h ⟨elErr, hAs, h404⟩
    simp [hne]

/-! ## The in-memory index -/

theorem lookup_version_id (m : Migration) : m.toJSON.lookup "version_id" = none := by
  simp [Migration.toJSON, List.lookup]

theorem lookup_version (m : Migration) : m.toJSON.lookup "version" = some (Itoa m.Version) := by
  simp [Migration.toJSON, List.lookup]

theorem Cluster_search_delete_request (t : String) (v : Int) (st : Cluster) :
    st.search t (deleteSearchRequest v) = [] := by
  simp [Cluster.search, deleteSearchRequest, queryMatches, lookup_version_id, sortsCreatedAtDesc]

theorem queryMatches_getMigration (v : Int) (hv : IsInt64 v) (m : Migration) :
    queryMatches (getMigrationRequest v).Query m = decide (m.Version = v) := by
  simp only [getMigrationRequest, queryMatches, List.all_cons, List.all_nil, Bool.and_true,
    lookup_version, intOfInt64_eq v hv, Option.some.injEq]
  by_cases h : m.Version = v
  · simp [h]
  · have hne : ¬ Itoa m.Version = Itoa v := fun hI => h (Itoa_injective _ _ hI)
    simp [h, hne]

theorem Cluster_search_getMigration (t : String) (v : Int) (hv : IsInt64 v) (st : Cluster) :
    st.search t (getMigrationRequest v)
      = (st.docs.filter (fun d => decide (d.Index = t) && decide (d.Source.Version = v))).map
          StoredDoc.toHit := by
  have hsort : sortsCreatedAtDesc (getMigrationRequest v).Sort_ = false := by
    simp [sortsCreatedAtDesc, getMigrationRequest]
  simp only [Cluster.search, hsort, queryMatches_getMigration v hv]
  rfl

/-! ## The loops -/

theorem listLoop_decodes (ds : List Migration) :
    ∀ (hits : List Hit) (results : List ListMigrationsResult),
      hits.map (fun h => h.Source_) = ds.map RawMessage.decodes →
      listLoop hits results
        = Except.ok (results ++ ds.map (fun d => { Version := d.Version, IsApplied := d.IsApplied })) := by
  induction ds with
  | nil =>
    intro hits results h
    have hnil : hits = [] := by simpa using h
    subst hnil
    simp [listLoop]
  | cons d ds ih =>
    intro hits results h
    cases hits with
    | nil => simp at h
    | cons hit rest =>
      simp only [List.map_cons, List.cons.injEq] at h
      obtain ⟨hd, hrest⟩ := h
      simp only [listLoop, hd, jsonUnmarshal]
      rw [ih rest _ hrest]
      simp

/-! ## Delete -/

/-- C1: for every version the lookup of `Store.Delete` filters on the field
`version_id`, which is not the field `version` under which `Insert` stores the
version number and on which `GetMigration` filters; over the in-memory index the
lookup therefore finds nothing and `Delete` returns nil with the index unchanged,
whatever it holds. -/
theorem Delete_lookup_field_mismatch (v : Int) :
    (deleteSearchRequest v).Query.map (fun q => q.Match.map Prod.fst) = some ["version_id"] ∧
    (getMigrationRequest v).Query.map (fun q => q.Match.map Prod.fst)
      = some [Migration.versionTag] ∧
    (∀ now, Migration.versionTag ∈ (insertDocument now v).toJSON.map Prod.fst) ∧
    "version_id" ≠ Migration.versionTag ∧
    (∀ (t : String) (st : Cluster), (modelStore t).Delete v st = (none, st)) := by
  refine ⟨rfl, rfl, ?_, by decide, ?_⟩
  · intro now
    simp [Migration.toJSON, Migration.versionTag]
  · intro t st
    simp [Store.Delete, modelStore, modelClient, Cluster_search_delete_request, firstDocumentID]

/-- C7: when the lookup of `Store.Delete` succeeds with zero hits, `Delete` returns
nil, the only call it makes is that search (no delete-document request), and the
backend is left in the state the search left it in. -/
theorem Delete_zero_hits {σ : Type} (s : Store σ) (v : Int) (st st1 : σ)
    (h : s.esClient.Search s.tableName (deleteSearchRequest v) st
      = (Except.ok { Hits := [] }, st1)) :
    s.Delete v st = (none, st1) ∧
    s.logged.Delete v (st, []) = (none, (st1, [Call.search s.tableName (deleteSearchRequest v)])) ∧
    (s.logged.Delete v (st, [])).2.2.filter Call.isDelete = [] := by
  have h1 : s.Delete v st = (none, st1) := by
    simp [Store.Delete, h, firstDocumentID]
  have h2 : s.logged.Delete v (st, [])
      = (none, (st1, [Call.search s.tableName (deleteSearchRequest v)])) := by
    simp [Store.Delete, Store.logged, TypedClient.logged, h, firstDocumentID]
  refine ⟨h1, h2, ?_⟩
  rw [h2]
  simp [Call.isDelete]

theorem Delete_zero_hits_witness :
    (scriptedStore "goose" (Except.ok { Hits := [] }) none).Delete 4 () = (none, ()) ∧
    (scriptedStore "goose" (Except.ok { Hits := [] }) none).logged.Delete 4 ((), [])
      = (none, ((), [Call.search "goose" (deleteSearchRequest 4)])) ∧
    ((scriptedStore "goose" (Except.ok { Hits := [] }) none).logged.Delete 4 ((), [])).2.2.filter
      Call.isDelete = [] :=
  Delete_zero_hits (scriptedStore "goose" (Except.ok { Hits := [] }) none) 4 () () rfl

/-- C8, at the failing input: the lookup finds the document `a`, the delete-document
request for it is issued and fails, and `Store.Delete` returns nil. -/
theorem Delete_swallows_delete_error :
    (scriptedStore "goose"
        (Except.ok { Hits := [{ Id_ := "a", Source_ := RawMessage.decodes (insertDocument 9 1) }] })
        (some (GoError.leaf "connection refused"))).logged.Delete 1 ((), [])
      = (none, ((), [Call.search "goose" (deleteSearchRequest 1), Call.delete "goose" "a"])) := by
  simp [Store.Delete, Store.logged, TypedClient.logged, scriptedStore, scriptedClient,
    firstDocumentID]

/-- C10: when the lookup of `Store.Delete` succeeds with at least one hit and the
first hit has a non-empty id, the calls `Delete` makes are the lookup and then one
delete-document request, for the configured index and the id of the first hit; no
other hit is deleted. -/
theorem Delete_first_hit_only {σ : Type} (s : Store σ) (v : Int) (st st1 : σ)
    (hit : Hit) (rest : List Hit)
    (h : s.esClient.Search s.tableName (deleteSearchRequest v) st
      = (Except.ok { Hits := hit :: rest }, st1))
    (hid : hit.Id_ ≠ "") :
    (s.logged.Delete v (st, [])).2.2
      = [Call.search s.tableName (deleteSearchRequest v), Call.delete s.tableName hit.Id_] ∧
    (s.logged.Delete v (st, [])).2.2.filter Call.isDelete = [Call.delete s.tableName hit.Id_] ∧
    (s.logged.Delete v (st, [])).2.1 = (s.esClient.Delete s.tableName hit.Id_ st1).2 := by
  have h2 : (s.logged.Delete v (st, [])).2.2
      = [Call.search s.tableName (deleteSearchRequest v), Call.delete s.tableName hit.Id_] := by
    simp [Store.Delete, Store.logged, TypedClient.logged, h, firstDocumentID, hid]
  refine ⟨h2, ?_, ?_⟩
  · rw [h2]
    simp [Call.isDelete]
  · simp [Store.Delete, Store.logged, TypedClient.logged, h, firstDocumentID, hid]

theorem Delete_first_hit_only_witness :
    "a" ≠ "" ∧
    ((scriptedStore "goose"
        (Except.ok { Hits := [{ Id_ := "a", Source_ := RawMessage.decodes (insertDocument 9 1) },
                              { Id_ := "b", Source_ := RawMessage.decodes (insertDocument 5 1) }] })
        none).logged.Delete 1 ((), [])).2.2.filter Call.isDelete = [Call.delete "goose" "a"] :=
  ⟨by decide,
   (Delete_first_hit_only
      (scriptedStore "goose"
        (Except.ok { Hits := [{ Id_ := "a", Source_ := RawMessage.decodes (insertDocument 9 1) },
                              { Id_ := "b", Source_ := RawMessage.decodes (insertDocument 5 1) }] })
        none)
      1 () () { Id_ := "a", Source_ := RawMessage.decodes (insertDocument 9 1) }
      [{ Id_ := "b", Source_ := RawMessage.decodes (insertDocument 5 1) }] rfl (by decide)).2.1⟩

/-! ## GetMigration -/

/-- C3: `Store.GetMigration` returns an error that is `ErrVersionNotFound` (by
`errors.Is`) when the search succeeds with zero hits and when it fails with an
Elasticsearch error of status 404; for any other search failure that is not itself
`ErrVersionNotFound` it returns an error that is not `ErrVersionNotFound` and that
unwraps to the error of the search. -/
theorem GetMigration_error_kinds {σ : Type} (s : Store σ) (v : Int) (st st1 : σ) :
    (s.esClient.Search s.tableName (getMigrationRequest v) st = (Except.ok { Hits := [] }, st1) →
      ∃ e, (s.GetMigration v st).1 = Except.error e ∧ errorsIs e ErrVersionNotFound = true) ∧
    (∀ err elErr,
      s.esClient.Search s.tableName (getMigrationRequest v) st = (Except.error err, st1) →
      errorsAs err = some elErr → elErr.Status = 404 →
      ∃ e, (s.GetMigration v st).1 = Except.error e ∧ errorsIs e ErrVersionNotFound = true) ∧
    (∀ err,
      s.esClient.Search s.tableName (getMigrationRequest v) st = (Except.error err, st1) →
      (¬ ∃ elErr, errorsAs err = some elErr ∧ elErr.Status = 404) →
      errorsIs err ErrVersionNotFound = false →
      ∃ e, (s.GetMigration v st).1 = Except.error e ∧ errorsIs e ErrVersionNotFound = false ∧
        errorsUnwrap e = some err) := by
  refine ⟨?_, ?_, ?_⟩
  · intro h
    refine ⟨ErrVersionNotFound, ?_, errorsIs_self_sentinel _⟩
    simp [Store.GetMigration, h, decodeFirst]
  · intro err elErr h hAs h404
    refine ⟨GoError.wrapf "" ErrVersionNotFound (": " ++ toString v), ?_, ?_⟩
    · simp [Store.GetMigration, h, isStatus404_of_errorsAs err elErr hAs h404]
    · rw [ErrVersionNotFound, errorsIs_wrapf_sentinel, errorsIs_self_sentinel]
  · intro err h hnot hIs
    refine ⟨GoError.wrapf "get migration: " err "", ?_, ?_, rfl⟩
    · simp [Store.GetMigration, h, isStatus404_false err hnot]
    · rw [ErrVersionNotFound, errorsIs_wrapf_sentinel]
      exact hIs

theorem GetMigration_error_kinds_witness :
    (∃ e, ((scriptedStore "goose" (Except.ok { Hits := [] }) none).GetMigration 3 ()).1
        = Except.error e ∧ errorsIs e ErrVersionNotFound = true) ∧
    (∃ e, ((scriptedStore "goose"
          (Except.error (GoError.elasticsearch { Status := 404, Reason := "index_not_found" }))
          none).GetMigration 3 ()).1
        = Except.error e ∧ errorsIs e ErrVersionNotFound = true) ∧
    (∃ e, ((scriptedStore "goose" (Except.error (GoError.leaf "connection refused"))
          none).GetMigration 3 ()).1
        = Except.error e ∧ errorsIs e ErrVersionNotFound = false ∧
        errorsUnwrap e = some (GoError.leaf "connection refused")) :=
  ⟨(GetMigration_error_kinds (scriptedStore "goose" (Except.ok { Hits := [] }) none) 3 () ()).1 rfl,
   (GetMigration_error_kinds
      (scriptedStore "goose"
        (Except.error (GoError.elasticsearch { Status := 404, Reason := "index_not_found" })) none)
      3 () ()).2.1 _ { Status := 404, Reason := "index_not_found" } rfl rfl rfl,
   (GetMigration_error_kinds
      (scriptedStore "goose" (Except.error (GoError.leaf "connection refused")) none)
      3 () ()).2.2 _ rfl (by simp [errorsAs]) (by decide)⟩

/-- C9, counterexample: the search succeeds with one hit whose source decodes to the
record with version 0, `is_applied` false and the zero timestamp, and
`Store.GetMigration` returns `ErrVersionNotFound` instead of that record. -/
theorem GetMigration_zero_record_not_found :
    jsonUnmarshal (RawMessage.decodes Migration.zero) = Except.ok Migration.zero ∧
    ((scriptedStore "goose"
        (Except.ok { Hits := [{ Id_ := "a", Source_ := RawMessage.decodes Migration.zero }] })
        none).GetMigration 0 ()).1 = Except.error ErrVersionNotFound := by
  refine ⟨rfl, ?_⟩
  simp [Store.GetMigration, scriptedStore, scriptedClient, decodeFirst, jsonUnmarshal]

/-- C9, amended: when the search succeeds with at least one hit and the first hit
decodes to a record `d` other than the zero record, `Store.GetMigration` returns no
error and the result with `Timestamp = d.CreatedAt` and `IsApplied = d.IsApplied`,
whatever hits follow the first. -/
theorem GetMigration_first_hit {σ : Type} (s : Store σ) (v : Int) (st st1 : σ)
    (hit : Hit) (rest : List Hit) (d : Migration)
    (h : s.esClient.Search s.tableName (getMigrationRequest v) st
      = (Except.ok { Hits := hit :: rest }, st1))
    (hd : jsonUnmarshal hit.Source_ = Except.ok d)
    (hne : d ≠ Migration.zero) :
    (s.GetMigration v st).1
      = Except.ok { Timestamp := d.CreatedAt, IsApplied := d.IsApplied } := by
  simp [Store.GetMigration, h, decodeFirst, hd, hne]

theorem GetMigration_first_hit_witness :
    insertDocument 9 1 ≠ Migration.zero ∧
    ((scriptedStore "goose"
        (Except.ok { Hits := [{ Id_ := "a", Source_ := RawMessage.decodes (insertDocument 9 1) },
                              { Id_ := "b", Source_ := RawMessage.decodes (insertDocument 5 1) }] })
        none).GetMigration 1 ()).1 = Except.ok { Timestamp := 9, IsApplied := true } :=
  ⟨by decide,
   GetMigration_first_hit
      (scriptedStore "goose"
        (Except.ok { Hits := [{ Id_ := "a", Source_ := RawMessage.decodes (insertDocument 9 1) },
                              { Id_ := "b", Source_ := RawMessage.decodes (insertDocument 5 1) }] })
        none)
      1 () () { Id_ := "a", Source_ := RawMessage.decodes (insertDocument 9 1) }
      [{ Id_ := "b", Source_ := RawMessage.decodes (insertDocument 5 1) }]
      (insertDocument 9 1) rfl rfl (by decide)⟩

/-! ## GetLatestVersion -/

/-- C4: `Store.GetLatestVersion` returns `(0, ErrVersionNotFound)` when the search
succeeds with zero hits and when it fails with an Elasticsearch error of status 404;
for every other search failure it returns 0 and a non-nil error that is not
`ErrVersionNotFound`: the error of the search wrapped, which is never the sentinel
value, and which `errors.Is` does not take for it either unless the error of the
search already carries the sentinel of goose, which the Elasticsearch client does
not produce. -/
theorem GetLatestVersion_error_kinds {σ : Type} (s : Store σ) (st st1 : σ) :
    (s.esClient.Search s.tableName latestVersionRequest st = (Except.ok { Hits := [] }, st1) →
      (s.GetLatestVersion st).1 = (0, some ErrVersionNotFound)) ∧
    (∀ err elErr,
      s.esClient.Search s.tableName latestVersionRequest st = (Except.error err, st1) →
      errorsAs err = some elErr → elErr.Status = 404 →
      (s.GetLatestVersion st).1 = (0, some ErrVersionNotFound)) ∧
    (∀ err,
      s.esClient.Search s.tableName latestVersionRequest st = (Except.error err, st1) →
      (¬ ∃ elErr, errorsAs err = some elErr ∧ elErr.Status = 404) →
      ∃ e, (s.GetLatestVersion st).1 = (0, some e) ∧ e ≠ ErrVersionNotFound ∧
        errorsUnwrap e = some err ∧
        (errorsIs err ErrVersionNotFound = false → errorsIs e ErrVersionNotFound = false)) := by
  refine ⟨?_, ?_, ?_⟩
  · intro h
    simp [Store.GetLatestVersion, h, decodeFirst]
  · intro err elErr h hAs h404
    simp [Store.GetLatestVersion, h, isStatus404_of_errorsAs err elErr hAs h404]
  · intro err h hnot
    refine ⟨GoError.wrapf "search: " err "", ?_, ?_, rfl, ?_⟩
    · simp [Store.GetLatestVersion, h, isStatus404_false err hnot]
    · simp [ErrVersionNotFound]
    · intro hIs
      rw [ErrVersionNotFound, errorsIs_wrapf_sentinel]
      exact hIs

theorem GetLatestVersion_error_kinds_witness :
    ((scriptedStore "goose" (Except.ok { Hits := [] }) none).GetLatestVersion ()).1
      = (0, some ErrVersionNotFound) ∧
    ((scriptedStore "goose"
        (Except.error (GoError.elasticsearch { Status := 404, Reason := "index_not_found" }))
        none).GetLatestVersion ()).1 = (0, some ErrVersionNotFound) ∧
    (∃ e, ((scriptedStore "goose" (Except.error (GoError.leaf "connection refused"))
          none).GetLatestVersion ()).1 = (0, some e) ∧ e ≠ ErrVersionNotFound ∧
        errorsUnwrap e = some (GoError.leaf "connection refused") ∧
        (errorsIs (GoError.leaf "connection refused") ErrVersionNotFound = false →
          errorsIs e ErrVersionNotFound = false)) :=
  ⟨(GetLatestVersion_error_kinds (scriptedStore "goose" (Except.ok { Hits := [] }) none) () ()).1 rfl,
   (GetLatestVersion_error_kinds
      (scriptedStore "goose"
        (Except.error (GoError.elasticsearch { Status := 404, Reason := "index_not_found" })) none)
      () ()).2.1 _ { Status := 404, Reason := "index_not_found" } rfl rfl rfl,
   (GetLatestVersion_error_kinds
      (scriptedStore "goose" (Except.error (GoError.leaf "connection refused")) none)
      () ()).2.2 _ rfl (by simp [errorsAs])⟩

/-- C5, counterexample: the sorted search succeeds with one hit whose source decodes
to the record with version 0, `is_applied` false and the zero timestamp, and
`Store.GetLatestVersion` returns `(0, ErrVersionNotFound)` and not `(0, nil)`. -/
theorem GetLatestVersion_zero_record_not_found :
    jsonUnmarshal (RawMessage.decodes Migration.zero) = Except.ok Migration.zero ∧
    ((scriptedStore "goose"
        (Except.ok { Hits := [{ Id_ := "a", Source_ := RawMessage.decodes Migration.zero }] })
        none).GetLatestVersion ()).1 = (0, some ErrVersionNotFound) := by
  refine ⟨rfl, ?_⟩
  simp [Store.GetLatestVersion, scriptedStore, scriptedClient, decodeFirst, jsonUnmarshal]

/-- C5, amended: when the sorted search succeeds with at least one hit and the first
hit decodes to a record `d` other than the zero record, `Store.GetLatestVersion`
returns `(d.Version, nil)`, whatever hits follow the first. -/
theorem GetLatestVersion_first_hit {σ : Type} (s : Store σ) (st st1 : σ)
    (hit : Hit) (rest : List Hit) (d : Migration)
    (h : s.esClient.Search s.tableName latestVersionRequest st
      = (Except.ok { Hits := hit :: rest }, st1))
    (hd : jsonUnmarshal hit.Source_ = Except.ok d)
    (hne : d ≠ Migration.zero) :
    (s.GetLatestVersion st).1 = (d.Version, none) := by
  simp [Store.GetLatestVersion, h, decodeFirst, hd, hne]

theorem GetLatestVersion_first_hit_witness :
    insertDocument 9 3 ≠ Migration.zero ∧
    ((scriptedStore "goose"
        (Except.ok { Hits := [{ Id_ := "c", Source_ := RawMessage.decodes (insertDocument 9 3) },
                              { Id_ := "b", Source_ := RawMessage.decodes (insertDocument 5 7) }] })
        none).GetLatestVersion ()).1 = (3, none) :=
  ⟨by decide,
   GetLatestVersion_first_hit
      (scriptedStore "goose"
        (Except.ok { Hits := [{ Id_ := "c", Source_ := RawMessage.decodes (insertDocument 9 3) },
                              { Id_ := "b", Source_ := RawMessage.decodes (insertDocument 5 7) }] })
        none)
      () () { Id_ := "c", Source_ := RawMessage.decodes (insertDocument 9 3) }
      [{ Id_ := "b", Source_ := RawMessage.decodes (insertDocument 5 7) }]
      (insertDocument 9 3) rfl rfl (by decide)⟩

/-! ## ListMigrations -/

/-- C6: when the search succeeds and every hit decodes (the sources of `hits` are the
encodings of the records `ds`, hit by hit), `Store.ListMigrations` returns no error
and the list of `(Version, IsApplied)` of `ds` in the order of the hits, one entry
per hit; with zero hits that is the empty list. -/
theorem ListMigrations_maps_hits {σ : Type} (s : Store σ) (st st1 : σ)
    (hits : List Hit) (ds : List Migration)
    (h : s.esClient.Search s.tableName listMigrationsRequest st
      = (Except.ok { Hits := hits }, st1))
    (hds : hits.map (fun x => jsonUnmarshal x.Source_) = ds.map Except.ok) :
    (s.ListMigrations st).1
      = Except.ok (ds.map (fun d => { Version := d.Version, IsApplied := d.IsApplied })) ∧
    (ds.map (fun d => ({ Version := d.Version, IsApplied := d.IsApplied } :
      ListMigrationsResult))).length = hits.length ∧
    (hits = [] → (s.ListMigrations st).1 = Except.ok []) := by
  have hsrc : hits.map (fun x => x.Source_) = ds.map RawMessage.decodes := by
    clear h
    induction ds generalizing hits with
    | nil =>
      have hnil : hits = [] := by simpa using hds
      subst hnil; rfl
    | cons d ds ih =>
      cases hits with
      | nil => simp at hds
      | cons hit rest =>
        simp only [List.map_cons, List.cons.injEq] at hds ⊢
        obtain ⟨h1, h2⟩ := hds
        refine ⟨?_, ih rest h2⟩
        cases hsrc : hit.Source_ with
        | decodes d1 =>
          rw [hsrc] at h1
          simp only [jsonUnmarshal, Except.ok.injEq] at h1
          rw [h1]
        | malformed e =>
          rw [hsrc] at h1
          simp [jsonUnmarshal] at h1
  have hres : (s.ListMigrations st).1
      = Except.ok (ds.map (fun d => { Version := d.Version, IsApplied := d.IsApplied })) := by
    simp [Store.ListMigrations, h, listLoop_decodes ds hits [] hsrc]
  refine ⟨hres, ?_, ?_⟩
  · have hlen := congrArg List.length hds
    simp only [List.length_map] at hlen ⊢
    exact hlen.symm
  · intro hnil
    subst hnil
    simp [Store.ListMigrations, h, listLoop]

theorem ListMigrations_maps_hits_witness :
    ((scriptedStore "goose"
        (Except.ok { Hits := [{ Id_ := "c", Source_ := RawMessage.decodes (insertDocument 9 3) },
                              { Id_ := "b", Source_ := RawMessage.decodes Migration.zero }] })
        none).ListMigrations ()).1
      = Except.ok [{ Version := 3, IsApplied := true }, { Version := 0, IsApplied := false }] :=
  (ListMigrations_maps_hits
      (scriptedStore "goose"
        (Except.ok { Hits := [{ Id_ := "c", Source_ := RawMessage.decodes (insertDocument 9 3) },
                              { Id_ := "b", Source_ := RawMessage.decodes Migration.zero }] })
        none)
      () ()
      [{ Id_ := "c", Source_ := RawMessage.decodes (insertDocument 9 3) },
       { Id_ := "b", Source_ := RawMessage.decodes Migration.zero }]
      [insertDocument 9 3, Migration.zero] rfl rfl).1

/-! ## Insert, then GetMigration -/

/-- C2, counterexample: over the in-memory index, starting empty, version 1 is
inserted at time 5 and again at time 9; both inserts succeed, and `GetMigration 1`
then returns the timestamp 5 of the first record, not the 9 the last insert
stamped. -/
theorem Insert_then_GetMigration_duplicate :
    ((modelStore "goose").Insert 5 1 { docs := [], nextId := 0 }).1 = none ∧
    ((modelStore "goose").Insert 9 1
      ((modelStore "goose").Insert 5 1 { docs := [], nextId := 0 }).2).1 = none ∧
    ((modelStore "goose").GetMigration 1
      ((modelStore "goose").Insert 9 1
        ((modelStore "goose").Insert 5 1 { docs := [], nextId := 0 }).2).2).1
      = Except.ok { Timestamp := 5, IsApplied := true } ∧
    (Except.ok { Timestamp := 5, IsApplied := true } : Except GoError GetMigrationResult)
      ≠ Except.ok { Timestamp := 9, IsApplied := true } := by
  refine ⟨rfl, rfl, ?_, by simp⟩
  have hv : IsInt64 1 := by decide
  simp only [Store.GetMigration, Store.Insert, modelStore, modelClient,
    Cluster_search_getMigration "goose" 1 hv]
  simp [insertDocument, decodeFirst, jsonUnmarshal, StoredDoc.toHit, Migration.zero]

/-- C2, amended: over the in-memory index, for every `int64` version `v` of which
the index `t` holds no record yet, `Insert` of `v` at time `now` succeeds and
`GetMigration v` right after it returns no error, with `IsApplied = true` and
`Timestamp = now`. -/
theorem Insert_then_GetMigration (t : String) (st : Cluster) (v : Int) (now : Time)
    (hv : IsInt64 v)
    (hfresh : ∀ d ∈ st.docs, d.Index = t → d.Source.Version ≠ v) :
    ((modelStore t).Insert now v st).1 = none ∧
    ((modelStore t).GetMigration v ((modelStore t).Insert now v st).2).1
      = Except.ok { Timestamp := now, IsApplied := true } := by
  refine ⟨rfl, ?_⟩
  have hold : st.docs.filter (fun d => decide (d.Index = t) && decide (d.Source.Version = v))
      = [] := by
    rw [List.filter_eq_nil_iff]
    intro d hd
    by_cases hi : d.Index = t
    · simp [hi, hfresh d hd hi]
    · simp [hi]
  simp only [Store.GetMigration, Store.Insert, modelStore, modelClient,
    Cluster_search_getMigration t v hv, List.filter_append, hold, List.nil_append]
  simp [insertDocument, decodeFirst, jsonUnmarshal, StoredDoc.toHit, Migration.zero]

theorem Insert_then_GetMigration_witness :
    IsInt64 7 ∧
    ((modelStore "goose").Insert 9 7
      { docs := [{ Index := "goose", Id_ := "0", Source := insertDocument 5 1 }], nextId := 1 }).1
      = none ∧
    ((modelStore "goose").GetMigration 7
      ((modelStore "goose").Insert 9 7
        { docs := [{ Index := "goose", Id_ := "0", Source := insertDocument 5 1 }],
          nextId := 1 }).2).1
      = Except.ok { Timestamp := 9, IsApplied := true } :=
  ⟨by decide,
   Insert_then_GetMigration "goose"
      { docs := [{ Index := "goose", Id_ := "0", Source := insertDocument 5 1 }], nextId := 1 }
      7 9 (by decide) (by simp [insertDocument])⟩

end MigrEL
